import Mathlib

/-!
# Formal model of the user price-alerts subsystem of openalgo-chart

This file gives a shallow embedding, in Lean, of the alert subsystem:

* the alert store `UserAlertsState` (file `state.ts`, class `UserAlertsState`):
  alert records, the insertion-ordered id-keyed alert map, the mutation
  operations together with the events they fire, and the persistence codec
  (`exportAlerts` / `importAlerts`);
* the toast dispatcher `AlertNotification` (file `alert-notification.ts`):
  live toasts, timer bookkeeping, `show` / `dismiss` / `destroy` and the
  webhook result toasts, modelled as a state machine with an explicit list of
  pending timers;
* the scalar trigger evaluator, modelled from the specification (its source
  file `line-tool-alert-manager.ts` is not part of the audited sources).

JavaScript numbers are modelled as `Rat`, epoch timestamps as `Int` (for
`Date.now()`) or `Nat` (for the dispatcher clock), and JS `Map` objects as
insertion-ordered association lists, with `set` replacing in place on an
existing key and appending on a fresh key, exactly as JS `Map` iteration
order behaves.
-/

namespace OpenAlgoChart

/-- The closed enumeration of alert conditions (`AlertCondition` in
`line-tool-alert-manager.ts`). -/
inductive AlertCondition
  | crossing
  | crossing_up
  | crossing_down
  | entering
  | exiting
  | inside
  | outside
deriving DecidableEq, Repr

/-- Webhook mode of the notification settings (`'openalgo' | 'custom'`). -/
inductive WebhookMode
  | openalgo
  | custom
deriving DecidableEq, Repr

/-- OpenAlgo order action (`'BUY' | 'SELL'`). -/
inductive OrderAction
  | buy
  | sell
deriving DecidableEq, Repr

/-- OpenAlgo product (`'MIS' | 'CNC' | 'NRML'`). -/
inductive OrderProduct
  | mis
  | cnc
  | nrml
deriving DecidableEq, Repr

/-- OpenAlgo price type (`'MARKET' | 'LIMIT'`). -/
inductive OrderPricetype
  | market
  | limit
deriving DecidableEq, Repr

/-- `AlertNotificationSettings` from `state.ts`: how the user is notified when
an alert triggers.  Optional TS fields become `Option`. -/
structure AlertNotificationSettings where
  showToast : Bool
  playSound : Bool
  webhookEnabled : Bool
  webhookUrl : Option String := none
  webhookMode : Option WebhookMode := none
  openalgoAction : Option OrderAction := none
  openalgoProduct : Option OrderProduct := none
  openalgoQuantity : Option Rat := none
  openalgoPricetype : Option OrderPricetype := none
  message : Option String := none
deriving DecidableEq, Repr

/-- `DEFAULT_NOTIFICATION_SETTINGS` from `state.ts`. -/
def DEFAULT_NOTIFICATION_SETTINGS : AlertNotificationSettings :=
  { showToast := true
    playSound := true
    webhookEnabled := false
    webhookMode := some .openalgo
    openalgoAction := some .buy
    openalgoProduct := some .mis
    openalgoQuantity := some 1
    openalgoPricetype := some .market
    message := some "{{symbol}} {{condition}} {{price}}" }

/-- The `type` discriminator of an alert (`'price' | 'tool'`). -/
inductive AlertType
  | price
  | tool
deriving DecidableEq, Repr

/-- Position of the close price relative to the alert line
(`'above' | 'below' | 'unknown'`). -/
inductive PricePosition
  | above
  | below
  | unknown
deriving DecidableEq, Repr

/-- `UserAlertInfo` from `state.ts`.  The non-serializable `toolRef` handle is
modelled as an opaque `Option Unit` (present or absent); nothing in the store
inspects it beyond existence. -/
structure UserAlertInfo where
  id : String
  price : Rat
  condition : Option AlertCondition := none
  type : Option AlertType := none
  toolRef : Option Unit := none
  initialPricePosition : Option PricePosition := none
  notifications : Option AlertNotificationSettings := none
  symbol : Option String := none
  exchange : Option String := none
deriving DecidableEq, Repr

/-- `SerializableAlert` from `state.ts`: the durable projection produced by
`exportAlerts`. -/
structure SerializableAlert where
  id : String
  price : Rat
  condition : AlertCondition
  type : AlertType
  createdAt : Int
  notifications : Option AlertNotificationSettings := none
  symbol : Option String := none
  exchange : Option String := none
deriving DecidableEq, Repr

/-- A raw record as `importAlerts` actually receives it from storage: every
field may be missing (`none`), the price may fail the `typeof === 'number'`
check (`none`), and an extra `triggered` flag may be present (the source reads
it through an `as any` cast). -/
structure ImportRecord where
  id : Option String := none
  price : Option Rat := none
  condition : Option AlertCondition := none
  type : Option AlertType := none
  createdAt : Option Int := none
  notifications : Option AlertNotificationSettings := none
  symbol : Option String := none
  exchange : Option String := none
  triggered : Option Bool := none
deriving DecidableEq, Repr

/-- View a well-typed `SerializableAlert` (as produced by `exportAlerts`) as
the raw record `importAlerts` receives after a JSON round trip. -/
def SerializableAlert.toRecord (s : SerializableAlert) : ImportRecord :=
  { id := some s.id
    price := some s.price
    condition := some s.condition
    type := some s.type
    createdAt := some s.createdAt
    notifications := s.notifications
    symbol := s.symbol
    exchange := s.exchange
    triggered := none }

/-! ## JS `Map` as an insertion-ordered association list -/

/-- `Map.prototype.has`. -/
def mapHas {α : Type} (m : List (String × α)) (k : String) : Bool :=
  m.any (fun p => p.1 = k)

/-- `Map.prototype.get` (`none` models `undefined`). -/
def mapGet {α : Type} (m : List (String × α)) (k : String) : Option α :=
  (m.find? (fun p => p.1 = k)).map Prod.snd

/-- `Map.prototype.set`: replace in place on an existing key, append on a
fresh key (JS `Map` keeps first-insertion order). -/
def mapSet {α : Type} (m : List (String × α)) (k : String) (v : α) :
    List (String × α) :=
  if mapHas m k then m.map (fun p => if p.1 = k then (k, v) else p)
  else m ++ [(k, v)]

/-- `Map.prototype.delete`. -/
def mapDelete {α : Type} (m : List (String × α)) (k : String) :
    List (String × α) :=
  m.filter (fun p => p.1 ≠ k)

/-- `Map.prototype.values` in iteration (insertion) order. -/
def mapValues {α : Type} (m : List (String × α)) : List α :=
  m.map Prod.snd

/-! ## The alert store -/

/-- The events a `UserAlertsState` fires through its four `Delegate`s, in
firing order. -/
inductive StoreEvent
  | alertAdded (alert : UserAlertInfo)
  | alertRemoved (id : String)
  | alertChanged (alert : UserAlertInfo)
  | alertsChanged
deriving DecidableEq, Repr

/-- The observable state of `UserAlertsState`: the id-keyed alert map
`_alerts` and the cached sorted array `_alertsArray`. -/
structure UserAlertsState where
  _alerts : List (String × UserAlertInfo)
  _alertsArray : List UserAlertInfo
deriving DecidableEq, Repr

/-- The state built by the constructor: empty map, empty cached array. -/
def initialAlertsState : UserAlertsState :=
  { _alerts := [], _alertsArray := [] }

/-- The sort relation of `_updateAlertsArray`: the comparator
`(a, b) => b.price - a.price` keeps `a` before `b` exactly when
`b.price ≤ a.price` (price descending). -/
def priceGe (a b : UserAlertInfo) : Prop := b.price ≤ a.price

instance : DecidableRel priceGe :=
  fun a b => inferInstanceAs (Decidable (b.price ≤ a.price))

instance : IsTotal UserAlertInfo priceGe :=
  ⟨fun a b => le_total b.price a.price⟩

instance : IsTrans UserAlertInfo priceGe :=
  ⟨fun _ _ _ hab hbc => le_trans hbc hab⟩

/-- `_updateAlertsArray`: recompute the cached array from the map values,
sorted by price descending (a stable sort, like JS `Array.prototype.sort`). -/
def updateAlertsArray (s : UserAlertsState) : UserAlertsState :=
  { s with _alertsArray := (mapValues s._alerts).insertionSort priceGe }

/-- The constructor subscribes `_updateAlertsArray` to the `_alertsChanged`
delegate, so every `_alertsChanged.fire()` recomputes the cached array.
`fireAlertsChanged` models one such fire. -/
def fireAlertsChanged (s : UserAlertsState) : UserAlertsState :=
  updateAlertsArray s

/-- `alerts()`: returns the cached sorted array. -/
def alertsOf (s : UserAlertsState) : List UserAlertInfo :=
  s._alertsArray

/-- `_getNewId`: draws random candidates until one is not an existing key.
The stream of `Math.round(Math.random() * 1000000).toString(16)` draws is
modelled as an explicit candidate list; the result is the first draw that is
collision-free (`none` when the finite stream is exhausted, where the source
would keep looping). -/
def getNewId (s : UserAlertsState) (candidates : List String) : Option String :=
  candidates.find? (fun c => !(mapHas s._alerts c))

/-- `addAlertWithCondition(price, condition)`, with the id produced by
`_getNewId` passed explicitly.  Returns the new state and the fired events. -/
def addAlertWithCondition (s : UserAlertsState) (price : Rat)
    (condition : AlertCondition) (id : String) :
    UserAlertsState × List StoreEvent :=
  let userAlert : UserAlertInfo := { price := price, id := id, condition := some condition }
  let s1 : UserAlertsState := { s with _alerts := mapSet s._alerts id userAlert }
  (fireAlertsChanged s1, [.alertAdded userAlert, .alertsChanged])

/-- `addAlert(price)`: delegates to `addAlertWithCondition` with `'crossing'`. -/
def addAlert (s : UserAlertsState) (price : Rat) (id : String) :
    UserAlertsState × List StoreEvent :=
  addAlertWithCondition s price .crossing id

/-- `removeAlert(id)`. -/
def removeAlert (s : UserAlertsState) (id : String) :
    UserAlertsState × List StoreEvent :=
  if mapHas s._alerts id then
    let s1 : UserAlertsState := { s with _alerts := mapDelete s._alerts id }
    (fireAlertsChanged s1, [.alertRemoved id, .alertsChanged])
  else (s, [])

/-- `updateAlertPrice(id, newPrice)`.  The source mutates the stored alert
object in place; here the map entry is replaced by the updated record. -/
def updateAlertPrice (s : UserAlertsState) (id : String) (newPrice : Rat) :
    UserAlertsState × List StoreEvent :=
  match mapGet s._alerts id with
  | none => (s, [])
  | some alert =>
    let updated : UserAlertInfo := { alert with price := newPrice }
    let s1 : UserAlertsState := { s with _alerts := mapSet s._alerts id updated }
    (fireAlertsChanged s1, [.alertChanged updated, .alertsChanged])

/-- `updateAlert(id, newPrice, condition, notifications?)`: the notification
settings are overwritten only when the optional argument is present
(`if (notifications)` in the source). -/
def updateAlert (s : UserAlertsState) (id : String) (newPrice : Rat)
    (condition : AlertCondition)
    (notifSettings : Option AlertNotificationSettings) :
    UserAlertsState × List StoreEvent :=
  match mapGet s._alerts id with
  | none => (s, [])
  | some alert =>
    let updated : UserAlertInfo :=
      { alert with
        price := newPrice
        condition := some condition
        notifications :=
          match notifSettings with
          | some n => some n
          | none => alert.notifications }
    let s1 : UserAlertsState := { s with _alerts := mapSet s._alerts id updated }
    (fireAlertsChanged s1, [.alertChanged updated, .alertsChanged])

/-- The record `exportAlerts` pushes for one price alert: `condition`
defaults to `'crossing'` when absent, `type` is always `'price'`, and
`createdAt` is the `Date.now()` value of the export call. -/
def serializeAlert (now : Int) (alert : UserAlertInfo) : SerializableAlert :=
  { id := alert.id
    price := alert.price
    condition := alert.condition.getD .crossing
    type := .price
    createdAt := now
    notifications := alert.notifications
    symbol := alert.symbol
    exchange := alert.exchange }

/-- The body of the `forEach` in `exportAlerts`: a price alert (`type` is not
`'tool'`) is serialized, a tool alert is skipped.  `now` is the value of
`Date.now()` at the moment of the export call. -/
def exportAlert (now : Int) (alert : UserAlertInfo) : Option SerializableAlert :=
  if alert.type = some .tool then none
  else some (serializeAlert now alert)

/-- `exportAlerts()`: serialize the price alerts, in map iteration order. -/
def exportAlerts (s : UserAlertsState) (now : Int) : List SerializableAlert :=
  (mapValues s._alerts).filterMap (exportAlert now)

/-- One iteration of the `for` loop in `importAlerts`: skip a record with a
falsy id or a non-numeric price, skip a record whose `triggered` flag is
truthy, otherwise build the in-memory alert and `set` it into the map. -/
def importStep (m : List (String × UserAlertInfo)) (r : ImportRecord) :
    List (String × UserAlertInfo) :=
  match r.id, r.price with
  | some id, some price =>
    if id = "" then m
    else if r.triggered = some true then m
    else
      mapSet m id
        { id := id
          price := price
          condition := some (r.condition.getD .crossing)
          type := some .price
          notifications := r.notifications
          symbol := r.symbol
          exchange := r.exchange }
  | _, _ => m

/-- `importAlerts(alerts)`: fold the loop over the records; fire a single
`alertsChanged` exactly when the input array is non-empty (no individual
`alertAdded` events are fired). -/
def importAlerts (s : UserAlertsState) (records : List ImportRecord) :
    UserAlertsState × List StoreEvent :=
  let s1 : UserAlertsState := { s with _alerts := records.foldl importStep s._alerts }
  if records.length > 0 then (fireAlertsChanged s1, [.alertsChanged])
  else (s1, [])

/-- `clearAlerts()`: no-op on an empty store, otherwise clear the map and
fire a single `alertsChanged` (no individual `alertRemoved` events). -/
def clearAlerts (s : UserAlertsState) : UserAlertsState × List StoreEvent :=
  if s._alerts.isEmpty then (s, [])
  else (fireAlertsChanged { s with _alerts := [] }, [.alertsChanged])

/-! ## The notification dispatcher (`alert-notification.ts`)

The dispatcher is modelled as a state machine.  DOM elements are abstract
handles (`Nat`, drawn from a counter); `window.setTimeout` is modelled by
appending a pending-timer record (id, due time, callback) to an explicit
list, `clearTimeout` by filtering that list, and a timer firing by
`fireTimer`, which removes the record and runs its callback.  CSS, audio
synthesis and the webhook HTTP call itself have no dispatcher state; the
webhook delivery callback is modelled by `showWebhookResultToast` being
invoked when the asynchronous delivery completes. -/

/-- Trigger direction (`'up' | 'down'`). -/
inductive Direction
  | up
  | down
deriving DecidableEq, Repr

/-- `AlertNotificationData` from `alert-notification.ts` (the `onEdit`
callback, a pure UI hook, is omitted). -/
structure AlertNotificationData where
  alertId : String
  symbol : String
  exchange : Option String := none
  price : String
  numericPrice : Option Rat := none
  closePrice : Option Rat := none
  timestamp : Int
  direction : Direction
  condition : AlertCondition
  notificationSettings : Option AlertNotificationSettings := none
deriving DecidableEq, Repr

/-- The callback a pending dispatcher timer will run when it fires:
* `autoDismiss`: the 60 s timer set in `show` — deletes its own
  `_dismissTimeouts` entry, then calls `dismiss(alertId)`;
* `removeNotif`: the 300 ms timer set in `dismiss` — removes the captured
  toast element from its parent and deletes `_notifications[alertId]`;
* `webhookToastDismiss`: the 60 s timer set in `_showWebhookResultToast` —
  fades the result toast and schedules its removal;
* `webhookToastRemove`: the nested 300 ms removal of a result toast. -/
inductive TimerKind
  | autoDismiss (alertId : String)
  | removeNotif (alertId : String) (elem : Nat)
  | webhookToastDismiss (elem : Nat)
  | webhookToastRemove (elem : Nat)
deriving DecidableEq, Repr

/-- A pending timer: its `setTimeout` handle, its firing time, its callback. -/
structure NotifTimer where
  tid : Nat
  due : Nat
  kind : TimerKind
deriving DecidableEq, Repr

/-- The observable state of an `AlertNotification` dispatcher. -/
structure AlertNotification where
  /-- `_container !== null`. -/
  _container : Bool
  /-- the container element is attached to `document.body`. -/
  _containerAttached : Bool
  /-- toast elements currently children of the container, in DOM order. -/
  _containerChildren : List Nat
  /-- `_notifications`: alertId → live toast element. -/
  _notifications : List (String × Nat)
  /-- `_dismissTimeouts`: alertId → pending auto-dismiss timer handle. -/
  _dismissTimeouts : List (String × Nat)
  /-- webhook result toast elements currently attached to `document.body`. -/
  _webhookToasts : List Nat
  /-- pending timers: scheduled, not yet fired, not cleared. -/
  _timers : List NotifTimer
  /-- fresh-element counter. -/
  nextElem : Nat
  /-- fresh `setTimeout` handle counter (browser handles are nonzero). -/
  nextTimer : Nat
  /-- current clock, in ms. -/
  now : Nat
deriving DecidableEq, Repr

/-- The dispatcher state built by the constructor: container created and
appended to `document.body`, all maps empty, no pending timer. -/
def createNotificationState : AlertNotification :=
  { _container := true
    _containerAttached := true
    _containerChildren := []
    _notifications := []
    _dismissTimeouts := []
    _webhookToasts := []
    _timers := []
    nextElem := 0
    nextTimer := 1
    now := 0 }

/-- `dismiss(alertId)`: clear and drop the tracked auto-dismiss timeout if
one exists, then, if a live toast exists for the id, start its dismissal
animation and schedule the 300 ms removal callback.  The `_notifications`
entry itself is deleted only later, by that callback. -/
def dismiss (st : AlertNotification) (alertId : String) : AlertNotification :=
  let st1 :=
    match mapGet st._dismissTimeouts alertId with
    | some tid =>
      { st with
        _timers := st._timers.filter (fun t => t.tid ≠ tid)
        _dismissTimeouts := mapDelete st._dismissTimeouts alertId }
    | none => st
  match mapGet st1._notifications alertId with
  | some elem =>
    { st1 with
      _timers := st1._timers ++ [⟨st1.nextTimer, st1.now + 300, .removeNotif alertId elem⟩]
      nextTimer := st1.nextTimer + 1 }
  | none => st1

/-- `show(data)`: no-op after destruction; otherwise, when the toast channel
is enabled (`settings?.showToast !== false`), dismiss any live toast for the
same alertId first, append a fresh toast element to the container, track it
in `_notifications`, and schedule (and track) its 60 s auto-dismiss timer.
The sound and webhook channels touch no dispatcher state here. -/
def showNotification (st : AlertNotification) (d : AlertNotificationData) : AlertNotification :=
  if !st._container then st
  else
    let showToast :=
      match d.notificationSettings with
      | none => true
      | some settings => settings.showToast
    if showToast then
      let st2 :=
        if mapHas st._notifications d.alertId then dismiss st d.alertId else st
      let elem := st2.nextElem
      let st3 :=
        { st2 with
          _containerChildren := st2._containerChildren ++ [elem]
          _notifications := mapSet st2._notifications d.alertId elem
          nextElem := st2.nextElem + 1 }
      { st3 with
        _timers := st3._timers ++ [⟨st3.nextTimer, st3.now + 60000, .autoDismiss d.alertId⟩]
        _dismissTimeouts := mapSet st3._dismissTimeouts d.alertId st3.nextTimer
        nextTimer := st3.nextTimer + 1 }
    else st

/-- `_showWebhookResultToast(success, message)`: append a result toast to
`document.body` and schedule its 60 s auto-dismiss timer.  That timer is
tracked nowhere (only the toast's own close button can clear it).  The
`success` flag and `message` affect only styling and text. -/
def showWebhookResultToast (st : AlertNotification) (_success : Bool)
    (_message : String) : AlertNotification :=
  let toast := st.nextElem
  { st with
    _webhookToasts := st._webhookToasts ++ [toast]
    _timers := st._timers ++ [⟨st.nextTimer, st.now + 60000, .webhookToastDismiss toast⟩]
    nextElem := st.nextElem + 1
    nextTimer := st.nextTimer + 1 }

/-- Run the callback of a timer that just fired. -/
def runTimerKind (st : AlertNotification) (k : TimerKind) : AlertNotification :=
  match k with
  | .autoDismiss alertId =>
    dismiss { st with _dismissTimeouts := mapDelete st._dismissTimeouts alertId } alertId
  | .removeNotif alertId elem =>
    { st with
      _containerChildren := st._containerChildren.filter (fun e => e ≠ elem)
      _notifications := mapDelete st._notifications alertId }
  | .webhookToastDismiss elem =>
    { st with
      _timers := st._timers ++ [⟨st.nextTimer, st.now + 300, .webhookToastRemove elem⟩]
      nextTimer := st.nextTimer + 1 }
  | .webhookToastRemove elem =>
    { st with _webhookToasts := st._webhookToasts.filter (fun e => e ≠ elem) }

/-- A pending timer with handle `tid` fires: it is removed from the pending
list, the clock advances to its due time, and its callback runs. -/
def fireTimer (st : AlertNotification) (tid : Nat) : AlertNotification :=
  match st._timers.find? (fun t => t.tid = tid) with
  | some t =>
    runTimerKind
      { st with
        _timers := st._timers.filter (fun u => u.tid ≠ tid)
        now := t.due }
      t.kind
  | none => st

/-- `destroy()`: clear every timeout tracked in `_dismissTimeouts` and empty
that map; then call `dismiss` for every live notification (each such call
schedules a fresh 300 ms removal timer, since the auto-dismiss handles were
already dropped); finally remove the container from the DOM and null the
references.  `_notifications` itself is not cleared here. -/
def destroy (st : AlertNotification) : AlertNotification :=
  let cleared := (mapValues st._dismissTimeouts)
  let st1 :=
    { st with
      _timers := st._timers.filter (fun t => !(cleared.contains t.tid))
      _dismissTimeouts := [] }
  let st2 := st1._notifications.foldl (fun acc p => dismiss acc p.1) st1
  { st2 with _containerAttached := false, _container := false }

/-! ## The scalar trigger evaluator

Modelled from the spec: the trigger evaluator lives in
`line-tool-alert-manager.ts`, which is not among the audited source files
(only its type imports appear), so the scalar-condition state machine below
follows §4.2 of the specification: the position of the latest price relative
to the threshold is `above` or `below`; the first evaluation after creation
records `initialPricePosition` and never emits a trigger; afterwards a
trigger fires only on a position transition matching the condition, and any
genuine trigger forces `initialPricePosition` to `unknown`. -/

/-- Modelled from the spec: the per-alert crossing state of the scalar
evaluator — the recorded `initialPricePosition` and the last known position
(`none` before the first evaluation). -/
structure ScalarEvalState where
  initialPricePosition : Option PricePosition := none
  lastPosition : Option PricePosition := none
deriving DecidableEq, Repr

/-- The evaluator state of a freshly created alert: nothing recorded yet. -/
def freshScalarState : ScalarEvalState := {}

/-- Modelled from the spec: the position of a price relative to the
threshold. -/
def scalarPosition (price threshold : Rat) : PricePosition :=
  if threshold < price then .above else .below

/-- Modelled from the spec: whether a `last → pos` transition matches the
condition's trigger side (`crossing` fires on any transition, `crossing_up`
only low→high, `crossing_down` only high→low). -/
def transitionMatches (condition : AlertCondition)
    (last pos : PricePosition) : Bool :=
  match condition with
  | .crossing => true
  | .crossing_up => last = .below && pos = .above
  | .crossing_down => last = .above && pos = .below
  | _ => false

/-- Modelled from the spec: one evaluation step of a scalar alert.  Returns
the updated state and whether a trigger event is emitted.  The first
evaluation records `initialPricePosition` and emits nothing; a later
evaluation emits exactly on a matching position transition, which also
forces `initialPricePosition` to `unknown`. -/
def evalScalar (condition : AlertCondition) (st : ScalarEvalState)
    (price threshold : Rat) : ScalarEvalState × Bool :=
  let pos := scalarPosition price threshold
  match st.lastPosition with
  | none =>
    ({ initialPricePosition := some pos, lastPosition := some pos }, false)
  | some last =>
    if last ≠ pos && transitionMatches condition last pos then
      ({ initialPricePosition := some .unknown, lastPosition := some pos }, true)
    else
      ({ st with lastPosition := some pos }, false)

/-! ## Basic facts about the map model -/

theorem mapGet_eq_none_of_hasFalse {α : Type} (m : List (String × α)) (k : String)
    (h : mapHas m k = false) : mapGet m k = none := by
  simp only [mapHas, List.any_eq_false, decide_eq_true_eq] at h
  simp only [mapGet, Option.map_eq_none', List.find?_eq_none, decide_eq_true_eq]
  exact h

theorem mapHas_true_of_mapGet_some {α : Type} (m : List (String × α)) (k : String)
    (v : α) (h : mapGet m k = some v) : mapHas m k = true := by
  by_contra hfalse
  rw [Bool.not_eq_true] at hfalse
  rw [mapGet_eq_none_of_hasFalse m k hfalse] at h
  exact Option.noConfusion h

/-! ## C2: first evaluation after creation -/

/-- C2: for every scalar-condition alert (`crossing`, `crossing_up`,
`crossing_down`), the first evaluation after creation records the computed
`initialPricePosition` (and last position) but emits no trigger, whatever
side of the threshold the price is already on. -/
theorem c2_first_evaluation_records_position_and_never_triggers
    (condition : AlertCondition)
    (hscalar : condition = .crossing ∨ condition = .crossing_up ∨
      condition = .crossing_down)
    (price threshold : Rat) :
    evalScalar condition freshScalarState price threshold =
      ({ initialPricePosition := some (scalarPosition price threshold)
         lastPosition := some (scalarPosition price threshold) }, false) := by
  cases hscalar with
  | inl h => subst h; rfl
  | inr h => cases h with
    | inl h => subst h; rfl
    | inr h => subst h; rfl

/-- Witness for C2: a `crossing_up` alert evaluated for the first time with
the price already above the threshold (the triggering side) records
`above` and does not trigger. -/
theorem c2_witness :
    (AlertCondition.crossing_up = .crossing ∨
      AlertCondition.crossing_up = .crossing_up ∨
      AlertCondition.crossing_up = .crossing_down) ∧
    evalScalar .crossing_up freshScalarState 10 5 =
      ({ initialPricePosition := some .above, lastPosition := some .above }, false) := by
  refine ⟨Or.inr (Or.inl rfl), ?_⟩
  have h := c2_first_evaluation_records_position_and_never_triggers
    .crossing_up (Or.inr (Or.inl rfl)) 10 5
  simpa using h

/-! ## C9: mutations on a missing id are silent no-ops -/

/-- C9: for an id not present in the store, `removeAlert`,
`updateAlertPrice` and `updateAlert` leave the state unchanged and fire no
event at all. -/
theorem c9_missing_id_mutations_are_silent_noops
    (s : UserAlertsState) (id : String) (newPrice : Rat)
    (condition : AlertCondition)
    (notifSettings : Option AlertNotificationSettings)
    (h : mapHas s._alerts id = false) :
    removeAlert s id = (s, []) ∧
    updateAlertPrice s id newPrice = (s, []) ∧
    updateAlert s id newPrice condition notifSettings = (s, []) := by
  have hget := mapGet_eq_none_of_hasFalse s._alerts id h
  refine ⟨?_, ?_, ?_⟩
  · simp [removeAlert, h]
  · simp [updateAlertPrice, hget]
  · simp [updateAlert, hget]

/-- Witness for C9: the empty store with id `"x"`. -/
theorem c9_witness :
    mapHas initialAlertsState._alerts "x" = false ∧
    removeAlert initialAlertsState "x" = (initialAlertsState, []) ∧
    updateAlertPrice initialAlertsState "x" 1 = (initialAlertsState, []) ∧
    updateAlert initialAlertsState "x" 1 .crossing none = (initialAlertsState, []) := by
  have h := c9_missing_id_mutations_are_silent_noops initialAlertsState "x" 1
    .crossing none (by decide)
  exact ⟨by decide, h.1, h.2.1, h.2.2⟩

/-! ## C10: `createdAt` is stamped at export time -/

theorem createdAt_of_mem_export (s : UserAlertsState) (now : Int)
    (e : SerializableAlert) (h : e ∈ exportAlerts s now) : e.createdAt = now := by
  simp only [exportAlerts, List.mem_filterMap] at h
  obtain ⟨a, _, ha⟩ := h
  simp only [exportAlert] at ha
  split at ha
  · exact Option.noConfusion ha
  · cases ha; rfl

/-- C10: every exported record's `createdAt` is the clock value of the
export call itself; two exports at different times therefore stamp
different `createdAt` values, and a re-export after an import round trip
carries the second export's time, not the first. -/
theorem c10_createdAt_stamped_at_export_time
    (s : UserAlertsState) (t1 t2 : Int) (e1 e2 : SerializableAlert)
    (h1 : e1 ∈ exportAlerts s t1) (h2 : e2 ∈ exportAlerts s t2) :
    e1.createdAt = t1 ∧
    (t1 ≠ t2 → e1.createdAt ≠ e2.createdAt) ∧
    ∀ e ∈ exportAlerts
        ((importAlerts initialAlertsState
          ((exportAlerts s t1).map SerializableAlert.toRecord)).1) t2,
      e.createdAt = t2 := by
  refine ⟨createdAt_of_mem_export s t1 e1 h1, ?_, ?_⟩
  · intro hne
    rw [createdAt_of_mem_export s t1 e1 h1, createdAt_of_mem_export s t2 e2 h2]
    exact hne
  · intro e he
    exact createdAt_of_mem_export _ t2 e he

/-- Witness for C10: a one-alert store exported at times 1 and 2. -/
theorem c10_witness :
    ({ id := "a", price := 5, condition := .crossing, type := .price,
       createdAt := 1 } : SerializableAlert) ∈
      exportAlerts (addAlert initialAlertsState 5 "a").1 1 ∧
    ({ id := "a", price := 5, condition := .crossing, type := .price,
       createdAt := 2 } : SerializableAlert) ∈
      exportAlerts (addAlert initialAlertsState 5 "a").1 2 ∧
    ({ id := "a", price := 5, condition := .crossing, type := .price,
       createdAt := 1 } : SerializableAlert).createdAt = 1 ∧
    ((1 : Int) ≠ 2 →
      ({ id := "a", price := 5, condition := .crossing, type := .price,
         createdAt := 1 } : SerializableAlert).createdAt ≠
      ({ id := "a", price := 5, condition := .crossing, type := .price,
         createdAt := 2 } : SerializableAlert).createdAt) := by
  have h := c10_createdAt_stamped_at_export_time (addAlert initialAlertsState 5 "a").1
    1 2
    { id := "a", price := 5, condition := .crossing, type := .price, createdAt := 1 }
    { id := "a", price := 5, condition := .crossing, type := .price, createdAt := 2 }
    (by decide) (by decide)
  exact ⟨by decide, by decide, h.1, h.2.1⟩

/-! ## C5: which events each mutation fires -/

/-- A minimal well-formed import record, used in concrete checks. -/
def sampleImportRecord : ImportRecord :=
  { id := some "a", price := some 5 }

/-- The alert that `addAlert initialAlertsState 5 "a"` stores. -/
def sampleAlertA : UserAlertInfo :=
  { id := "a", price := 5, condition := some .crossing }

/-- A one-alert store: the result of `addAlert(5)` on a fresh store with
generated id `"a"`. -/
def oneAlertState : UserAlertsState :=
  (addAlert initialAlertsState 5 "a").1

/-- Counterexample to C5 as stated: importing one valid record adds an
alert to the store but fires only the aggregate `alertsChanged` — no
individual `alertAdded` event is fired for the affected alert. -/
theorem c5_counterexample_import_fires_no_individual_events :
    (importAlerts initialAlertsState [sampleImportRecord]).2 =
      [.alertsChanged] ∧
    ((importAlerts initialAlertsState [sampleImportRecord]).1)._alerts.length = 1 := by
  decide

/-- C5 amended: each single-alert mutation fires its individual event
followed by exactly one aggregate `alertsChanged`; the batch operations
`importAlerts` (on a non-empty input array) and `clearAlerts` (on a
non-empty store) fire exactly one aggregate `alertsChanged` and no
individual events. -/
theorem c5_amended_events_fired_per_operation
    (s : UserAlertsState) (price newPrice : Rat) (condition : AlertCondition)
    (id rid uid : String) (alert : UserAlertInfo)
    (notifSettings : Option AlertNotificationSettings)
    (records : List ImportRecord)
    (hr : mapHas s._alerts rid = true)
    (hu : mapGet s._alerts uid = some alert)
    (hrec : records ≠ [])
    (hne : s._alerts ≠ []) :
    (addAlertWithCondition s price condition id).2 =
      [.alertAdded { price := price, id := id, condition := some condition },
       .alertsChanged] ∧
    (removeAlert s rid).2 = [.alertRemoved rid, .alertsChanged] ∧
    (updateAlertPrice s uid newPrice).2 =
      [.alertChanged { alert with price := newPrice }, .alertsChanged] ∧
    (updateAlert s uid newPrice condition notifSettings).2 =
      [.alertChanged
        { alert with
          price := newPrice
          condition := some condition
          notifications :=
            match notifSettings with
            | some n => some n
            | none => alert.notifications },
       .alertsChanged] ∧
    (importAlerts s records).2 = [.alertsChanged] ∧
    (clearAlerts s).2 = [.alertsChanged] := by
  have hlen : records.length > 0 := List.length_pos.mpr hrec
  have hempty : s._alerts.isEmpty = false := by
    cases halts : s._alerts with
    | nil => exact absurd halts hne
    | cons a l => rfl
  refine ⟨rfl, ?_, ?_, ?_, ?_, ?_⟩
  · simp [removeAlert, hr]
  · simp [updateAlertPrice, hu]
  · simp [updateAlert, hu]
  · simp [importAlerts, hlen]
  · simp [clearAlerts, hempty]

/-- Witness for C5's amended statement: the one-alert store, updating and
removing id `"a"`, importing one record, clearing. -/
theorem c5_amended_witness :
    mapHas oneAlertState._alerts "a" = true ∧
    mapGet oneAlertState._alerts "a" = some sampleAlertA ∧
    (removeAlert oneAlertState "a").2 = [.alertRemoved "a", .alertsChanged] ∧
    (updateAlertPrice oneAlertState "a" 7).2 =
      [.alertChanged { sampleAlertA with price := 7 }, .alertsChanged] ∧
    (importAlerts oneAlertState [sampleImportRecord]).2 = [.alertsChanged] ∧
    (clearAlerts oneAlertState).2 = [.alertsChanged] := by
  have h := c5_amended_events_fired_per_operation oneAlertState 5 7 .crossing
    "b" "a" "a" sampleAlertA none [sampleImportRecord]
    (by decide) (by decide) (by decide) (by decide)
  exact ⟨by decide, by decide, h.2.1, h.2.2.1, h.2.2.2.2.1, h.2.2.2.2.2⟩

/-! ## C7: replace-not-stack and the orphaned replacement toast -/

/-- A concrete trigger event payload for dispatcher traces. -/
def sampleNotificationData : AlertNotificationData :=
  { alertId := "a", symbol := "SYM", price := "5", timestamp := 0,
    direction := .up, condition := .crossing }

/-- Dispatcher state after `show` was called twice for alert `"a"`: the
first toast (element 0) is being dismissed (its 300 ms removal timer, handle
2, is pending) and the replacement toast (element 1) is live and tracked. -/
def c7_afterReplace : AlertNotification :=
  showNotification
    (showNotification createNotificationState sampleNotificationData)
    sampleNotificationData

/-- ... then the old toast's 300 ms removal timer fires. -/
def c7_afterOldRemovalTimer : AlertNotification :=
  fireTimer c7_afterReplace 2

/-- ... then the user manually dismisses alert `"a"`. -/
def c7_afterLaterDismiss : AlertNotification :=
  dismiss c7_afterOldRemovalTimer "a"

/-- C7, evaluated at the failing input: immediately after the replacing
`show`, the notification map does track the new toast (element 1); but when
the old toast's 300 ms removal callback fires it unconditionally deletes
the `_notifications` entry for the alert id, so a later manual dismiss of
`"a"` finds no tracked toast and the replacement toast stays attached to
the container. -/
theorem c7_replacement_toast_is_orphaned :
    mapGet c7_afterReplace._notifications "a" = some 1 ∧
    c7_afterOldRemovalTimer._notifications = [] ∧
    c7_afterLaterDismiss._notifications = [] ∧
    c7_afterLaterDismiss._containerChildren = [1] := by
  decide

/-! ## C8: pending timers surviving `destroy` -/

/-- Dispatcher state with one live toast for alert `"a"` (element 0, with
its 60 s auto-dismiss timer, handle 1) and one pending webhook result toast
(element 1, with its untracked 60 s timer, handle 2). -/
def c8_beforeDestroy : AlertNotification :=
  showWebhookResultToast
    (showNotification createNotificationState sampleNotificationData)
    true "Webhook sent"

/-- ... then the dispatcher is destroyed. -/
def c8_afterDestroy : AlertNotification :=
  destroy c8_beforeDestroy

/-- C8, evaluated at the failing input: `destroy` clears only the tracked
auto-dismiss timer; the webhook result toast's 60 s timer (handle 2) is
still pending afterwards, and the `dismiss` call made by `destroy` itself
schedules a fresh 300 ms removal timer (handle 3) — both fire after
`destroy` completes, as firing handle 3 then still mutates the state. -/
theorem c8_destroy_leaves_pending_timers :
    c8_afterDestroy._container = false ∧
    c8_afterDestroy._timers.map NotifTimer.kind =
      [.webhookToastDismiss 1, .removeNotif "a" 0] ∧
    c8_afterDestroy._containerChildren = [0] ∧
    (fireTimer c8_afterDestroy 3)._containerChildren = [] := by
  decide

/-! ## C3: import skips malformed and triggered records individually -/

/-- The record-level guard of the import loop: a record survives it exactly
when it has a truthy id, a numeric price, and no truthy `triggered` flag. -/
def importRecordValid (r : ImportRecord) : Bool :=
  match r.id, r.price with
  | some id, some _ => !(id = "") && !(r.triggered = some true)
  | _, _ => false

theorem importStep_invalid (m : List (String × UserAlertInfo)) (r : ImportRecord)
    (h : importRecordValid r = false) : importStep m r = m := by
  unfold importRecordValid at h
  unfold importStep
  match hid : r.id, hp : r.price with
  | none, none => rfl
  | none, some _ => rfl
  | some id, none => rfl
  | some id, some p =>
    rw [hid, hp] at h
    simp only [Bool.and_eq_false_iff, Bool.not_eq_false'] at h
    rcases h with h | h
    · simp only [decide_eq_true_eq] at h
      simp [h]
    · simp only [decide_eq_true_eq] at h
      by_cases hid0 : id = "" <;> simp [hid0, h]

theorem foldl_importStep_filter (records : List ImportRecord) :
    ∀ m : List (String × UserAlertInfo),
      records.foldl importStep m =
        (records.filter importRecordValid).foldl importStep m := by
  induction records with
  | nil => intro m; rfl
  | cons r rest ih =>
    intro m
    by_cases hv : importRecordValid r = true
    · simp only [List.foldl_cons, List.filter_cons, hv, if_pos]
      exact ih (importStep m r)
    · rw [Bool.not_eq_true] at hv
      simp only [List.foldl_cons, List.filter_cons, hv, Bool.false_eq_true, if_neg,
        not_false_iff, importStep_invalid m r hv]
      exact ih m

theorem mapHas_eq_true_iff {α : Type} (m : List (String × α)) (k : String) :
    mapHas m k = true ↔ ∃ p ∈ m, p.1 = k := by
  simp [mapHas]

theorem mapHas_mapSet_true {α : Type} (m : List (String × α)) (k k' : String)
    (v : α) (h : mapHas (mapSet m k v) k' = true) :
    mapHas m k' = true ∨ k' = k := by
  unfold mapSet at h
  split at h
  · rw [mapHas_eq_true_iff] at h
    obtain ⟨p, hp, heq⟩ := h
    rw [List.mem_map] at hp
    obtain ⟨q, hq, hfq⟩ := hp
    by_cases hqk : q.1 = k
    · right
      rw [← hfq, if_pos hqk] at heq
      exact heq.symm
    · left
      rw [← hfq, if_neg hqk] at heq
      exact (mapHas_eq_true_iff m k').mpr ⟨q, hq, heq⟩
  · rw [mapHas_eq_true_iff] at h
    obtain ⟨p, hp, heq⟩ := h
    rw [List.mem_append] at hp
    rcases hp with hp | hp
    · exact Or.inl ((mapHas_eq_true_iff m k').mpr ⟨p, hp, heq⟩)
    · right
      rw [List.mem_singleton] at hp
      rw [hp] at heq
      exact heq.symm

theorem mapHas_importStep_true (m : List (String × UserAlertInfo))
    (r : ImportRecord) (k : String)
    (h : mapHas (importStep m r) k = true) :
    mapHas m k = true ∨ (importRecordValid r = true ∧ r.id = some k) := by
  obtain ⟨rid, rprice, rcond, rtype, rcreated, rnotif, rsym, rexch, rtrig⟩ := r
  cases rid with
  | none =>
    cases rprice with
    | none => exact Or.inl (by simpa [importStep] using h)
    | some p => exact Or.inl (by simpa [importStep] using h)
  | some id =>
    cases rprice with
    | none => exact Or.inl (by simpa [importStep] using h)
    | some p =>
      simp only [importStep] at h
      split_ifs at h with hid0 htr
      · exact Or.inl h
      · exact Or.inl h
      · rcases mapHas_mapSet_true _ _ _ _ h with hm | hk
        · exact Or.inl hm
        · refine Or.inr ⟨?_, by rw [hk]⟩
          simp [importRecordValid, hid0, htr]

theorem mapHas_foldl_importStep (records : List ImportRecord) :
    ∀ (m : List (String × UserAlertInfo)) (k : String),
      mapHas (records.foldl importStep m) k = true →
      mapHas m k = true ∨
        ∃ r ∈ records, importRecordValid r = true ∧ r.id = some k := by
  induction records with
  | nil => intro m k h; exact Or.inl h
  | cons r rest ih =>
    intro m k h
    rcases ih (importStep m r) k h with hstep | ⟨r', hr', hv', hid'⟩
    · rcases mapHas_importStep_true m r k hstep with hm | ⟨hv, hid⟩
      · exact Or.inl hm
      · exact Or.inr ⟨r, List.mem_cons_self r rest, hv, hid⟩
    · exact Or.inr ⟨r', List.mem_cons_of_mem r hr', hv', hid'⟩

/-- C3: `importAlerts` adds nothing for a record that is missing an id, has
a non-numeric price, or carries a truthy `triggered` flag — the resulting
map is exactly the one obtained by processing only the records that pass
the guard — and every id present afterwards was either already in the store
or comes from a record that passed the guard.  The import itself always
completes, whatever junk the individual records contain. -/
theorem c3_import_skips_invalid_records_individually
    (s : UserAlertsState) (records : List ImportRecord) :
    ((importAlerts s records).1)._alerts =
      (records.filter importRecordValid).foldl importStep s._alerts ∧
    ∀ k : String, mapHas ((importAlerts s records).1)._alerts k = true →
      mapHas s._alerts k = true ∨
        ∃ r ∈ records, importRecordValid r = true ∧ r.id = some k := by
  have halerts : ((importAlerts s records).1)._alerts =
      records.foldl importStep s._alerts := by
    unfold importAlerts
    split <;> rfl
  constructor
  · rw [halerts]
    exact foldl_importStep_filter records s._alerts
  · intro k hk
    rw [halerts] at hk
    exact mapHas_foldl_importStep records s._alerts k hk

/-- A batch of import records of which only the last passes the guard: the
first has no id, the second a non-numeric price, the third a truthy
`triggered` flag. -/
def mixedImportRecords : List ImportRecord :=
  [{ price := some 1 },
   { id := some "b" },
   { id := some "c", price := some 3, triggered := some true },
   sampleImportRecord]

/-- Witness for C3: importing the mixed batch into an empty store adds the
single valid record, and its id is accounted for by the guard. -/
theorem c3_witness :
    mapHas ((importAlerts initialAlertsState mixedImportRecords).1)._alerts "a" = true ∧
    ((importAlerts initialAlertsState mixedImportRecords).1)._alerts.length = 1 ∧
    (mapHas initialAlertsState._alerts "a" = true ∨
      ∃ r ∈ mixedImportRecords, importRecordValid r = true ∧ r.id = some "a") := by
  refine ⟨by decide, by decide, ?_⟩
  exact (c3_import_skips_invalid_records_individually initialAlertsState
    mixedImportRecords).2 "a" (by decide)

/-! ## C4: the cached array is the store sorted by price descending -/

/-- The cached-array invariant maintained through the `_alertsChanged`
subscription. -/
def ArrayInv (s : UserAlertsState) : Prop :=
  s._alertsArray = (mapValues s._alerts).insertionSort priceGe

/-- What C4 asserts of a state: `alerts()` returns exactly the alerts in
the map, sorted by price descending. -/
def AlertsSortedSpec (s : UserAlertsState) : Prop :=
  (alertsOf s).Perm (mapValues s._alerts) ∧ (alertsOf s).Pairwise priceGe

theorem arrayInv_initial : ArrayInv initialAlertsState := rfl

theorem arrayInv_fire (s : UserAlertsState) : ArrayInv (fireAlertsChanged s) := rfl

theorem alertsSortedSpec_of_arrayInv (s : UserAlertsState) (h : ArrayInv s) :
    AlertsSortedSpec s := by
  constructor
  · rw [alertsOf, h]
    exact List.perm_insertionSort priceGe (mapValues s._alerts)
  · rw [alertsOf, h]
    exact List.sorted_insertionSort priceGe (mapValues s._alerts)

/-- C4: starting from any state whose cached array satisfies the invariant
(as the constructor's empty state does), every store mutation —
`addAlert`, `addAlertWithCondition`, `removeAlert`, `updateAlertPrice`,
`updateAlert`, `importAlerts`, `clearAlerts` — leaves `alerts()` equal (as
a multiset) to the alerts in the map, sorted by price descending, and
re-establishes the invariant. -/
theorem c4_alerts_sorted_after_every_mutation
    (s : UserAlertsState) (h : ArrayInv s)
    (price newPrice : Rat) (condition : AlertCondition)
    (id rid uid : String)
    (notifSettings : Option AlertNotificationSettings)
    (records : List ImportRecord) :
    (ArrayInv (addAlertWithCondition s price condition id).1 ∧
      AlertsSortedSpec (addAlertWithCondition s price condition id).1) ∧
    (ArrayInv (addAlert s price id).1 ∧
      AlertsSortedSpec (addAlert s price id).1) ∧
    (ArrayInv (removeAlert s rid).1 ∧
      AlertsSortedSpec (removeAlert s rid).1) ∧
    (ArrayInv (updateAlertPrice s uid newPrice).1 ∧
      AlertsSortedSpec (updateAlertPrice s uid newPrice).1) ∧
    (ArrayInv (updateAlert s uid newPrice condition notifSettings).1 ∧
      AlertsSortedSpec (updateAlert s uid newPrice condition notifSettings).1) ∧
    (ArrayInv (importAlerts s records).1 ∧
      AlertsSortedSpec (importAlerts s records).1) ∧
    (ArrayInv (clearAlerts s).1 ∧
      AlertsSortedSpec (clearAlerts s).1) := by
  have hadd : ArrayInv (addAlertWithCondition s price condition id).1 :=
    arrayInv_fire _
  have hadd' : ArrayInv (addAlert s price id).1 := arrayInv_fire _
  have hrem : ArrayInv (removeAlert s rid).1 := by
    unfold removeAlert
    split
    · exact arrayInv_fire _
    · exact h
  have hupd : ArrayInv (updateAlertPrice s uid newPrice).1 := by
    unfold updateAlertPrice
    split
    · exact h
    · exact arrayInv_fire _
  have hupd2 : ArrayInv (updateAlert s uid newPrice condition notifSettings).1 := by
    unfold updateAlert
    split
    · exact h
    · exact arrayInv_fire _
  have himp : ArrayInv (importAlerts s records).1 := by
    cases records with
    | nil => exact h
    | cons r rest =>
      unfold importAlerts
      split
      · exact arrayInv_fire _
      · next hc => simp at hc
  have hclr : ArrayInv (clearAlerts s).1 := by
    unfold clearAlerts
    split
    · exact h
    · exact arrayInv_fire _
  exact ⟨⟨hadd, alertsSortedSpec_of_arrayInv _ hadd⟩,
    ⟨hadd', alertsSortedSpec_of_arrayInv _ hadd'⟩,
    ⟨hrem, alertsSortedSpec_of_arrayInv _ hrem⟩,
    ⟨hupd, alertsSortedSpec_of_arrayInv _ hupd⟩,
    ⟨hupd2, alertsSortedSpec_of_arrayInv _ hupd2⟩,
    ⟨himp, alertsSortedSpec_of_arrayInv _ himp⟩,
    ⟨hclr, alertsSortedSpec_of_arrayInv _ hclr⟩⟩

/-- Witness for C4: adding an alert to the constructor's state. -/
theorem c4_witness :
    ArrayInv initialAlertsState ∧
    (ArrayInv (addAlertWithCondition initialAlertsState 5 .crossing "a").1 ∧
      AlertsSortedSpec (addAlertWithCondition initialAlertsState 5 .crossing "a").1) := by
  exact ⟨arrayInv_initial,
    (c4_alerts_sorted_after_every_mutation initialAlertsState arrayInv_initial
      5 7 .crossing "a" "r" "u" none []).1⟩

/-! ## C6: id generation and pairwise-distinct ids -/

/-- The `Map` invariant made explicit for the association-list model: the
keys are pairwise distinct. -/
def DistinctKeys {α : Type} (m : List (String × α)) : Prop :=
  (m.map Prod.fst).Nodup

instance {α : Type} (m : List (String × α)) : Decidable (DistinctKeys m) :=
  inferInstanceAs (Decidable (m.map Prod.fst).Nodup)

theorem mapHas_eq_false_iff {α : Type} (m : List (String × α)) (k : String) :
    mapHas m k = false ↔ k ∉ m.map Prod.fst := by
  simp only [mapHas, List.any_eq_false, decide_eq_true_eq, List.mem_map]
  constructor
  · rintro h ⟨p, hp, hk⟩
    exact h p hp hk
  · intro h p hp hpk
    exact h ⟨p, hp, hpk⟩

theorem getNewId_not_in_store (s : UserAlertsState) (candidates : List String)
    (id : String) (h : getNewId s candidates = some id) :
    mapHas s._alerts id = false := by
  have := List.find?_some h
  simp only [Bool.not_eq_true'] at this
  exact this

theorem keys_mapSet {α : Type} (m : List (String × α)) (k : String) (v : α) :
    (mapSet m k v).map Prod.fst =
      if mapHas m k then m.map Prod.fst else m.map Prod.fst ++ [k] := by
  unfold mapSet
  split
  · rw [List.map_map]
    apply List.map_congr_left
    intro p _
    by_cases hpk : p.1 = k
    · simp [hpk]
    · simp [hpk]
  · rw [List.map_append]
    rfl

theorem distinctKeys_mapSet {α : Type} (m : List (String × α)) (k : String)
    (v : α) (hd : DistinctKeys m) : DistinctKeys (mapSet m k v) := by
  unfold DistinctKeys
  rw [keys_mapSet]
  split
  · exact hd
  · next hhas =>
    rw [Bool.not_eq_true] at hhas
    rw [List.nodup_append]
    refine ⟨hd, List.nodup_singleton k, ?_⟩
    intro a ha hak
    rw [List.mem_singleton] at hak
    subst hak
    exact (mapHas_eq_false_iff m a).mp hhas ha

theorem distinctKeys_mapDelete {α : Type} (m : List (String × α)) (k : String)
    (hd : DistinctKeys m) : DistinctKeys (mapDelete m k) := by
  unfold DistinctKeys mapDelete
  exact List.Nodup.sublist (List.Sublist.map Prod.fst (List.filter_sublist m)) hd

theorem distinctKeys_importStep (m : List (String × UserAlertInfo))
    (r : ImportRecord) (hd : DistinctKeys m) : DistinctKeys (importStep m r) := by
  obtain ⟨rid, rprice, rcond, rtype, rcreated, rnotif, rsym, rexch, rtrig⟩ := r
  cases rid with
  | none => cases rprice <;> simpa [importStep] using hd
  | some id =>
    cases rprice with
    | none => simpa [importStep] using hd
    | some p =>
      simp only [importStep]
      split_ifs
      · exact hd
      · exact hd
      · exact distinctKeys_mapSet _ _ _ hd

theorem distinctKeys_foldl_importStep (records : List ImportRecord) :
    ∀ m : List (String × UserAlertInfo), DistinctKeys m →
      DistinctKeys (records.foldl importStep m) := by
  induction records with
  | nil => intro m hd; exact hd
  | cons r rest ih =>
    intro m hd
    exact ih (importStep m r) (distinctKeys_importStep m r hd)

/-- C6: an id produced by `_getNewId` is never a key already held by an
alert in the store, and — the store's keys being pairwise distinct — every
store operation keeps them pairwise distinct. -/
theorem c6_generated_id_fresh_and_keys_stay_distinct
    (s : UserAlertsState) (candidates : List String)
    (price newPrice : Rat) (condition : AlertCondition)
    (id rid uid : String)
    (notifSettings : Option AlertNotificationSettings)
    (records : List ImportRecord)
    (hgen : getNewId s candidates = some id)
    (hd : DistinctKeys s._alerts) :
    mapHas s._alerts id = false ∧
    (∀ p ∈ s._alerts, p.1 ≠ id) ∧
    DistinctKeys ((addAlertWithCondition s price condition id).1)._alerts ∧
    DistinctKeys ((removeAlert s rid).1)._alerts ∧
    DistinctKeys ((updateAlertPrice s uid newPrice).1)._alerts ∧
    DistinctKeys ((updateAlert s uid newPrice condition notifSettings).1)._alerts ∧
    DistinctKeys ((importAlerts s records).1)._alerts ∧
    DistinctKeys ((clearAlerts s).1)._alerts := by
  have hfresh := getNewId_not_in_store s candidates id hgen
  refine ⟨hfresh, ?_, ?_, ?_, ?_, ?_, ?_, ?_⟩
  · intro p hp hpk
    apply (mapHas_eq_false_iff s._alerts id).mp hfresh
    rw [← hpk]
    exact List.mem_map_of_mem Prod.fst hp
  · exact distinctKeys_mapSet _ _ _ hd
  · unfold removeAlert
    split
    · exact distinctKeys_mapDelete _ _ hd
    · exact hd
  · unfold updateAlertPrice
    split
    · exact hd
    · exact distinctKeys_mapSet _ _ _ hd
  · unfold updateAlert
    split
    · exact hd
    · exact distinctKeys_mapSet _ _ _ hd
  · have halerts : ((importAlerts s records).1)._alerts =
        records.foldl importStep s._alerts := by
      unfold importAlerts
      split <;> rfl
    rw [halerts]
    exact distinctKeys_foldl_importStep records s._alerts hd
  · unfold clearAlerts
    split
    · exact hd
    · exact List.nodup_nil

/-- Witness for C6: drawing the id `"a"` for the empty store. -/
theorem c6_witness :
    getNewId initialAlertsState ["a"] = some "a" ∧
    DistinctKeys initialAlertsState._alerts ∧
    mapHas initialAlertsState._alerts "a" = false ∧
    DistinctKeys ((addAlertWithCondition initialAlertsState 5 .crossing "a").1)._alerts := by
  have h := c6_generated_id_fresh_and_keys_stay_distinct initialAlertsState ["a"]
    5 7 .crossing "a" "r" "u" none [] (by decide) (by decide)
  exact ⟨by decide, by decide, h.1, h.2.2.1⟩

/-! ## C1: `importAlerts(exportAlerts())` round trip -/

/-- The in-memory alert `importAlerts` rebuilds from a well-formed exported
record. -/
def importedAlert (e : SerializableAlert) : UserAlertInfo :=
  { id := e.id
    price := e.price
    condition := some e.condition
    type := some .price
    notifications := e.notifications
    symbol := e.symbol
    exchange := e.exchange }

/-- `importAlerts(exportAlerts())` into a fresh store, the export happening
at clock value `now`. -/
def roundTrip (s : UserAlertsState) (now : Int) : UserAlertsState :=
  (importAlerts initialAlertsState
    ((exportAlerts s now).map SerializableAlert.toRecord)).1

theorem filterMap_exportAlert (now : Int) (l : List UserAlertInfo) :
    l.filterMap (exportAlert now) =
      (l.filter (fun a => !(a.type = some AlertType.tool))).map (serializeAlert now) := by
  induction l with
  | nil => rfl
  | cons a l ih =>
    by_cases h : a.type = some AlertType.tool
    · simp [List.filterMap_cons, List.filter_cons, exportAlert, h, ih]
    · simp [List.filterMap_cons, List.filter_cons, exportAlert, h, ih]

theorem importStep_toRecord (m : List (String × UserAlertInfo))
    (e : SerializableAlert) (hid : e.id ≠ "") :
    importStep m e.toRecord = mapSet m e.id (importedAlert e) := by
  simp [importStep, SerializableAlert.toRecord, importedAlert, hid]

theorem mapHas_append {α : Type} (m1 m2 : List (String × α)) (k : String) :
    mapHas (m1 ++ m2) k = (mapHas m1 k || mapHas m2 k) := by
  simp [mapHas, List.any_append]

theorem foldl_import_exported (es : List SerializableAlert) :
    ∀ m : List (String × UserAlertInfo),
      (∀ e ∈ es, e.id ≠ "") →
      (∀ e ∈ es, mapHas m e.id = false) →
      ((es.map (fun e => e.id)).Nodup) →
      (es.map SerializableAlert.toRecord).foldl importStep m =
        m ++ es.map (fun e => (e.id, importedAlert e)) := by
  induction es with
  | nil => intro m _ _ _; simp
  | cons e rest ih =>
    intro m hids hfresh hnodup
    have he : e.id ≠ "" := hids e (List.mem_cons_self e rest)
    have hfe : mapHas m e.id = false := hfresh e (List.mem_cons_self e rest)
    rw [List.map_cons, List.foldl_cons, importStep_toRecord m e he]
    have hset : mapSet m e.id (importedAlert e) = m ++ [(e.id, importedAlert e)] := by
      unfold mapSet
      rw [hfe]
      simp
    rw [List.map_cons, List.nodup_cons] at hnodup
    rw [hset, ih (m ++ [(e.id, importedAlert e)]) ?_ ?_ hnodup.2]
    · simp
    · intro e' he'
      exact hids e' (List.mem_cons_of_mem e he')
    · intro e' he'
      rw [mapHas_append]
      have h1 : mapHas m e'.id = false := hfresh e' (List.mem_cons_of_mem e he')
      have hne : ¬(e.id = e'.id) := by
        intro heq
        exact hnodup.1 (heq ▸ List.mem_map_of_mem (fun x => x.id) he')
      have h2 : mapHas [(e.id, importedAlert e)] e'.id = false := by
        simp [mapHas, hne]
      rw [h1, h2]
      rfl

/-- C1: for a store whose price-kind alerts all carry a non-empty id and an
explicit condition (as every alert created through the store API does),
importing the export into a fresh store reproduces an equivalent set of the
price-kind alerts — each with id, price, condition, notifications, symbol
and exchange preserved, in both directions — and no record of a tool-kind
alert appears in the exported sequence. -/
theorem c1_export_import_round_trip
    (s : UserAlertsState) (now : Int)
    (hkeys : DistinctKeys s._alerts)
    (hkeyid : ∀ p ∈ s._alerts, p.1 = p.2.id)
    (hids : ∀ a ∈ mapValues s._alerts, a.type ≠ some AlertType.tool → a.id ≠ "")
    (hconds : ∀ a ∈ mapValues s._alerts,
      a.type ≠ some AlertType.tool → a.condition.isSome) :
    (∀ a ∈ mapValues s._alerts, a.type ≠ some AlertType.tool →
      ∃ b ∈ mapValues (roundTrip s now)._alerts,
        b.id = a.id ∧ b.price = a.price ∧ b.condition = a.condition ∧
        b.notifications = a.notifications ∧ b.symbol = a.symbol ∧
        b.exchange = a.exchange) ∧
    (∀ b ∈ mapValues (roundTrip s now)._alerts,
      ∃ a ∈ mapValues s._alerts, a.type ≠ some AlertType.tool ∧
        b.id = a.id ∧ b.price = a.price ∧ b.condition = a.condition ∧
        b.notifications = a.notifications ∧ b.symbol = a.symbol ∧
        b.exchange = a.exchange) ∧
    (∀ a ∈ mapValues s._alerts, a.type = some AlertType.tool →
      ∀ e ∈ exportAlerts s now, e.id ≠ a.id) := by
  have hvalsIds : s._alerts.map Prod.fst =
      (mapValues s._alerts).map (fun a => a.id) := by
    unfold mapValues
    rw [List.map_map]
    exact List.map_congr_left hkeyid
  have hvalsNodup : ((mapValues s._alerts).map (fun a => a.id)).Nodup :=
    hvalsIds ▸ hkeys
  have hexp : exportAlerts s now =
      ((mapValues s._alerts).filter
        (fun a => !(a.type = some AlertType.tool))).map (serializeAlert now) :=
    filterMap_exportAlert now (mapValues s._alerts)
  have hexpNodup : ((exportAlerts s now).map (fun e => e.id)).Nodup := by
    rw [hexp, List.map_map]
    exact List.Nodup.sublist
      (List.Sublist.map _ (List.filter_sublist (mapValues s._alerts))) hvalsNodup
  have hexpIdsNe : ∀ e ∈ exportAlerts s now, e.id ≠ "" := by
    intro e he
    rw [hexp, List.mem_map] at he
    obtain ⟨a, ha, rfl⟩ := he
    rw [List.mem_filter] at ha
    have hat : a.type ≠ some AlertType.tool := by simpa using ha.2
    exact hids a ha.1 hat
  have halerts : (roundTrip s now)._alerts =
      (exportAlerts s now).map (fun e => (e.id, importedAlert e)) := by
    unfold roundTrip
    have h0 : ((importAlerts initialAlertsState
        ((exportAlerts s now).map SerializableAlert.toRecord)).1)._alerts =
        ((exportAlerts s now).map SerializableAlert.toRecord).foldl importStep [] := by
      unfold importAlerts
      split <;> rfl
    rw [h0, foldl_import_exported (exportAlerts s now) [] hexpIdsNe
      (fun e _ => rfl) hexpNodup]
    exact List.nil_append _
  have hvalsRT : mapValues (roundTrip s now)._alerts =
      (exportAlerts s now).map importedAlert := by
    rw [halerts]
    unfold mapValues
    rw [List.map_map]
    rfl
  refine ⟨?_, ?_, ?_⟩
  · intro a ha hat
    have hmem : a ∈ (mapValues s._alerts).filter
        (fun a => !(a.type = some AlertType.tool)) :=
      List.mem_filter.mpr ⟨ha, by simpa using hat⟩
    refine ⟨importedAlert (serializeAlert now a), ?_, rfl, rfl, ?_, rfl, rfl, rfl⟩
    · rw [hvalsRT, hexp]
      exact List.mem_map_of_mem importedAlert
        (List.mem_map_of_mem (serializeAlert now) hmem)
    · obtain ⟨c, hc⟩ := Option.isSome_iff_exists.mp (hconds a ha hat)
      simp [importedAlert, serializeAlert, hc]
  · intro b hb
    rw [hvalsRT, List.mem_map] at hb
    obtain ⟨e, he, rfl⟩ := hb
    rw [hexp, List.mem_map] at he
    obtain ⟨a, ha, rfl⟩ := he
    rw [List.mem_filter] at ha
    have hat : a.type ≠ some AlertType.tool := by simpa using ha.2
    refine ⟨a, ha.1, hat, rfl, rfl, ?_, rfl, rfl, rfl⟩
    obtain ⟨c, hc⟩ := Option.isSome_iff_exists.mp (hconds a ha.1 hat)
    simp [importedAlert, serializeAlert, hc]
  · intro a ha hat e he heq
    rw [hexp, List.mem_map] at he
    obtain ⟨a', ha', rfl⟩ := he
    rw [List.mem_filter] at ha'
    have hat' : ¬(a'.type = some AlertType.tool) := by simpa using ha'.2
    have haa : a' = a :=
      List.inj_on_of_nodup_map hvalsNodup ha'.1 ha heq
    rw [haa] at hat'
    exact hat' hat

/-- A store holding one price alert and one tool alert, used to witness the
round trip. -/
def roundTripSampleState : UserAlertsState :=
  { _alerts :=
      [("a", { id := "a", price := 5, condition := some .crossing,
               notifications := some DEFAULT_NOTIFICATION_SETTINGS,
               symbol := some "SBIN", exchange := some "NSE" }),
       ("b", { id := "b", price := 7, condition := some .crossing_up,
               type := some .tool, toolRef := some () })]
    _alertsArray := [] }

/-- Witness for C1: the two-alert sample store round-trips to exactly its
price alert, and no exported record carries the tool alert's id. -/
theorem c1_witness :
    DistinctKeys roundTripSampleState._alerts ∧
    (∀ p ∈ roundTripSampleState._alerts, p.1 = p.2.id) ∧
    (∀ a ∈ mapValues roundTripSampleState._alerts,
      a.type ≠ some AlertType.tool → a.id ≠ "") ∧
    (∀ a ∈ mapValues roundTripSampleState._alerts,
      a.type ≠ some AlertType.tool → a.condition.isSome) ∧
    (∀ a ∈ mapValues roundTripSampleState._alerts,
      a.type = some AlertType.tool →
      ∀ e ∈ exportAlerts roundTripSampleState 42, e.id ≠ a.id) ∧
    mapValues (roundTrip roundTripSampleState 42)._alerts =
      [{ id := "a", price := 5, condition := some .crossing,
         type := some .price,
         notifications := some DEFAULT_NOTIFICATION_SETTINGS,
         symbol := some "SBIN", exchange := some "NSE" }] := by
  refine ⟨by decide, by decide, by decide, by decide, ?_, by decide⟩
  exact (c1_export_import_round_trip roundTripSampleState 42
    (by decide) (by decide) (by decide) (by decide)).2.2

end OpenAlgoChart
